import Mathlib

/-!
Verification development for the slack-to-drive upload pipeline.

The definitions below are shallow embeddings of the JavaScript source:
  * `src/services/helpers/classificationRules.js` — rule table, rule merge,
    and the multi-signal classification scorer;
  * `src/utils/database.js` — the SQLite-backed upload store (`insertUpload`,
    `updateUpload`, `fileExists`);
  * `src/server.js` — event dedup set, intake handler
    (`handleFileSharedEvent`) and the retry controller
    (`processUploadWithRetry`).

Numbers that JavaScript holds as floating point are modelled as rationals
(every constant in the source is a short decimal, and scorer arithmetic on
the inputs used here is exact). JavaScript strings are modelled as Lean
strings; `toLowerCase`/`toUpperCase` only ever act on ASCII letters in the
rule tables, which matches `Char.toLower`/`Char.toUpper`.
-/

namespace SlackToDrive

/-! ## String helpers: JS `String.prototype.includes`, `toLowerCase`, `toUpperCase` -/

/-- Whether the first list is a leading segment of the second. -/
def leadsWith : List Char → List Char → Bool
  | [], _ => true
  | _ :: _, [] => false
  | a :: as, b :: bs => a == b && leadsWith as bs

/-- Whether `needle` occurs as a contiguous segment of the haystack. -/
def containsSeg (needle : List Char) : List Char → Bool
  | [] => needle.isEmpty
  | c :: rest => leadsWith needle (c :: rest) || containsSeg needle rest

/-- JS `hay.includes(needle)`. -/
def strIncludes (hay needle : String) : Bool :=
  containsSeg needle.data hay.data

/-- JS `s.toLowerCase()` (ASCII; the only cased characters in the rules). -/
def lowerStr (s : String) : String :=
  String.mk (s.data.map Char.toLower)

/-- JS `s.toUpperCase()` (ASCII). -/
def upperStr (s : String) : String :=
  String.mk (s.data.map Char.toUpper)

/-- Computable `Math.min` on rationals (kernel-reducible, unlike `min` via
the lattice instances). -/
def qmin (a b : ℚ) : ℚ := if a ≤ b then a else b

/-- Computable `Math.max` on rationals. -/
def qmax (a b : ℚ) : ℚ := if a ≤ b then b else a

/-! ## Classification data model (classificationRules.js) -/

/-- One Vision API label with its confidence (`{description, score}`). -/
structure VisionLabel where
  description : String
  score : ℚ
deriving DecidableEq

/-- OCR result (`visionAnalysis.text`): `{hasText, full}`. -/
structure TextAnalysis where
  hasText : Bool
  full : String
deriving DecidableEq

/-- One dominant color entry; only `pixelFraction` is read by the scorer. -/
structure ColorInfo where
  pixelFraction : ℚ
deriving DecidableEq

/-- Vision analysis input of `classifyImage`. `faces` is `some count` when
`visionAnalysis.faces && visionAnalysis.faces.count !== undefined`. -/
structure VisionAnalysis where
  labels : List VisionLabel
  text : TextAnalysis
  faces : Option Nat
  colors : List ColorInfo
deriving DecidableEq

/-- Slack message context. `messages` is `none` when the context object or
its `messages` field is absent; each message text is `none` when falsy
(`m.text || ''`). -/
structure SlackContext where
  messages : Option (List (Option String))
deriving DecidableEq

/-- One category rule of the static table. `hasText = none` models the JS
`null` (text presence does not matter). A missing `antiLabels` array is
modelled as `[]`, which the source treats identically
(`rules.antiLabels && rules.antiLabels.length > 0`). -/
structure Rule where
  keywords : List String
  visionLabels : List String
  antiLabels : List String
  hasText : Option Bool
  priority : ℚ
deriving DecidableEq

/-- The category table is ordered: JS object insertion order, which drives
iteration order and sort stability. -/
abbrev RuleTable := List (String × Rule)

/-- Learned overlay entry for one category (`learned-rules.json`).
`recommendedPriority = some p` models a present numeric field (the JS merge
uses `learned.recommendedPriority || base.priority`, so `0` falls back);
`hasText = some h` models a field that is not `undefined`, with `h = none`
for JS `null`. -/
structure LearnedRule where
  noChanges : Bool
  recommendedPriority : Option ℚ
  hasText : Option (Option Bool)
  requiredLabels : List String
  recommendedLabels : List String
  antiLabels : List String
deriving DecidableEq

/-- JS `array.filter((x, i, self) => self.indexOf(x) === i)`:
keep the first occurrence of each element. -/
def dedupFirst (l : List String) : List String :=
  go [] l
where
  go (seen : List String) : List String → List String
    | [] => []
    | x :: xs => if x ∈ seen then go seen xs else x :: go (x :: seen) xs

/-- `mergeRules` per category (classificationRules.js lines 45-73). -/
def mergeRule (base : Rule) (learned : Option LearnedRule) : Rule :=
  match learned with
  | none => base
  | some l =>
    if l.noChanges then base
    else
      { base with
        priority :=
          match l.recommendedPriority with
          | some p => if p == 0 then base.priority else p
          | none => base.priority
        hasText :=
          match l.hasText with
          | some h => h
          | none => base.hasText
        visionLabels :=
          dedupFirst (l.requiredLabels ++ l.recommendedLabels ++ base.visionLabels)
        antiLabels :=
          dedupFirst (l.antiLabels ++ base.antiLabels) }

/-- `mergeRules(baseRules, learnedRules)`: the learned overlay is a
key-value document, modelled as a partial map from category names. -/
def mergeRules (baseRules : RuleTable) (learnedRules : String → Option LearnedRule) :
    RuleTable :=
  baseRules.map (fun cr => (cr.1, mergeRule cr.2 (learnedRules cr.1)))

/-! ### The static BASE_RULES table (classificationRules.js lines 80-271) -/

def catSolo : String := "캐릭터 일러스트 (단독)"
def catGroup : String := "일러스트 (단체)"
def catUI : String := "UI / 화면"
def catGame : String := "게임 스크린샷"
def catEtc : String := "기타"

def soloRule : Rule :=
  { keywords := ["캐릭터", "character", "단독", "solo", "single", "일러스트", "illustration",
      "그림", "drawing", "portrait", "인물", "캐릭", "char", "persona",
      "1인", "one", "alone"]
    visionLabels := ["Graphics", "Animation", "Fictional character", "Graphic design",
      "Animated cartoon", "Fiction", "Anime", "Hero", "Costume", "Cartoon",
      "person", "character", "anime", "cartoon", "drawing", "art", "illustration",
      "sketch", "portrait", "face", "manga", "comic", "human", "figure",
      "character design"]
    antiLabels := ["crowd", "group", "people", "team", "landscape", "scenery"]
    hasText := some false
    priority := 0.85 }

def groupRule : Rule :=
  { keywords := ["일러스트", "illustration", "단체", "group", "team", "multiple", "many",
      "배경", "background", "풍경", "landscape", "scenery", "environment",
      "복수", "several", "여러", "bg", "씬", "scene"]
    visionLabels := ["Animation", "Fiction", "Fictional character", "Animated cartoon",
      "Anime", "Cartoon", "Hero", "CG artwork", "Graphics", "PC game",
      "people", "group", "crowd", "team", "illustration", "art", "drawing",
      "landscape", "sky", "mountain", "nature", "scenery", "environment",
      "outdoor", "building", "architecture", "city", "forest", "ocean",
      "background", "scene", "anime", "cartoon"]
    antiLabels := ["High-rise building", "Cityscape", "Skyscraper", "Animation", "Tower"]
    hasText := some false
    priority := 0.8 }

def uiRule : Rule :=
  { keywords := ["ui", "ux", "디자인", "design", "화면", "screen", "인터페이스", "interface",
      "목업", "mockup", "프로토타입", "prototype", "앱", "app", "웹", "web",
      "버튼", "button", "레이아웃", "layout", "메뉴", "menu"]
    visionLabels := ["Animation", "Animated cartoon", "Video Game Software", "Anime",
      "Fictional character", "Screenshot", "Graphic design", "High-rise building",
      "Game", "PC game", "user interface", "mobile app", "website", "application",
      "software", "screen", "display", "button", "menu", "icon", "logo",
      "design", "mockup", "prototype", "dashboard", "webpage", "ui design"]
    antiLabels := ["Diagram", "Graphic design", "Screenshot", "Plan", "Animation",
      "Graphics", "Video Game Software"]
    hasText := some true
    priority := 0.82 }

def gameRule : Rule :=
  { keywords := ["게임", "game", "gaming", "게임플레이", "gameplay", "플레이", "play",
      "스크린샷", "screenshot", "캡처", "capture", "화면캡처", "screencap",
      "ss", "캡쳐", "cap", "인게임", "ingame"]
    visionLabels := ["Animation", "Video Game Software", "Fictional character", "PC game",
      "Screenshot", "Graphics", "Graphic design", "game", "video game", "gaming",
      "gameplay", "screenshot", "game screen", "computer monitor", "display",
      "screen", "window", "desktop", "game ui", "hud", "health bar",
      "game interface"]
    antiLabels := []
    hasText := some false
    priority := 0.86 }

def etcRule : Rule :=
  { keywords := ["기타", "other", "misc", "miscellaneous", "미분류", "uncategorized",
      "잡다", "various", "모호", "unclear"]
    visionLabels := []
    antiLabels := []
    hasText := some false
    priority := 0.79 }

def BASE_RULES : RuleTable :=
  [(catSolo, soloRule), (catGroup, groupRule), (catUI, uiRule),
   (catGame, gameRule), (catEtc, etcRule)]

/-- The repository ships no `data/learned-rules.json`, so `loadLearnedRules`
returns the empty object. -/
def loadedLearnedRules : String → Option LearnedRule := fun _ => none

/-- `CATEGORY_RULES = mergeRules(BASE_RULES, loadLearnedRules())`. -/
def CATEGORY_RULES : RuleTable := mergeRules BASE_RULES loadedLearnedRules

/-! ### Score maps

JS builds score objects keyed exactly by the categories of the rule table,
in table order; they are modelled as association lists sharing that order. -/

/-- JS `m[c]` with a default (`m[c] || 0` style access). -/
def lookupD {α : Type} (l : List (String × α)) (c : String) (d : α) : α :=
  match l.find? (fun p => p.1 == c) with
  | some p => p.2
  | none => d

/-- A zero score for every category (`scores[category] = 0` loop). -/
def zeroScores (table : RuleTable) : List (String × ℚ) :=
  table.map (fun cr => (cr.1, (0 : ℚ)))

/-- The `for ... of Object.entries(sub)` loops adding `score * w` into
`scores`; both maps are keyed by the table categories. -/
def addWeighted (scores sub : List (String × ℚ)) (w : ℚ) : List (String × ℚ) :=
  scores.map (fun cs => (cs.1, cs.2 + w * lookupD sub cs.1 0))

/-- `scores[c] = f(scores[c])` for one category. -/
def bump (scores : List (String × ℚ)) (c : String) (f : ℚ → ℚ) : List (String × ℚ) :=
  scores.map (fun cs => if cs.1 == c then (cs.1, f cs.2) else cs)

/-! ### The three signal analyzers -/

/-- `extractContextText` (classificationRules.js lines 562-570). -/
def extractContextText (ctx : SlackContext) : String :=
  match ctx.messages with
  | none => ""
  | some ms => String.intercalate " " (ms.map (fun m => m.getD ""))

/-- `analyzeKeywords` (lines 446-472). -/
def analyzeKeywords (table : RuleTable) (ctx : SlackContext) : List (String × ℚ) :=
  let contextText := lowerStr (extractContextText ctx)
  if contextText == "" then
    zeroScores table
  else
    table.map (fun cr =>
      let matchCount :=
        (cr.2.keywords.filter (fun kw => strIncludes contextText (lowerStr kw))).length
      (cr.1, qmin ((matchCount : ℚ) / 2) 1))

/-- The per-category body of `analyzeVisionLabels` (lines 489-527):
`labelTexts` is the precomputed lowercased description list. -/
def visionLabelScore (labels : List VisionLabel) (labelTexts : List String)
    (rules : Rule) : ℚ :=
  let base := rules.visionLabels.foldl
    (fun matchScore visionLabel =>
      match labelTexts.find? (fun lt =>
          strIncludes lt (lowerStr visionLabel) || strIncludes (lowerStr visionLabel) lt) with
      | some matchedLabel =>
        match labels.find? (fun l => lowerStr l.description == matchedLabel) with
        | some labelObj => qmax matchScore labelObj.score
        | none => matchScore
      | none => matchScore) 0
  let afterAnti :=
    if rules.antiLabels.length > 0 then
      rules.antiLabels.foldl
        (fun matchScore antiLabel =>
          match labelTexts.find? (fun lt =>
              strIncludes lt (lowerStr antiLabel) || strIncludes (lowerStr antiLabel) lt) with
          | some matchedAntiLabel =>
            match labels.find? (fun l => lowerStr l.description == matchedAntiLabel) with
            | some antiLabelObj => matchScore - antiLabelObj.score * 0.15
            | none => matchScore
          | none => matchScore) base
    else base
  qmax 0 afterAnti

/-- `analyzeVisionLabels` (lines 477-530). -/
def analyzeVisionLabels (table : RuleTable) (labels : List VisionLabel) :
    List (String × ℚ) :=
  if labels.isEmpty then
    zeroScores table
  else
    let labelTexts := labels.map (fun l => lowerStr l.description)
    table.map (fun cr => (cr.1, visionLabelScore labels labelTexts cr.2))

/-- `analyzeTextPresence` (lines 535-557). -/
def analyzeTextPresence (table : RuleTable) (t : TextAnalysis) : List (String × ℚ) :=
  let textLength := t.full.length
  table.map (fun cr =>
    (cr.1,
      match cr.2.hasText with
      | none => (0.5 : ℚ)
      | some true =>
        if t.hasText && decide (textLength > 10) then qmin ((textLength : ℚ) / 100) 1
        else 0.2
      | some false =>
        if !t.hasText || decide (textLength < 10) then 1
        else 0.2))

/-! ### classifyImage stages (lines 295-441) -/

/-- Scores after steps 1-3: keyword (weight 0.4), label (0.4), text (0.3). -/
def scoresStage1 (table : RuleTable) (ctx : SlackContext) : List (String × ℚ) :=
  addWeighted (zeroScores table) (analyzeKeywords table ctx) 0.4

def scoresStage2 (table : RuleTable) (va : VisionAnalysis) (ctx : SlackContext) :
    List (String × ℚ) :=
  addWeighted (scoresStage1 table ctx) (analyzeVisionLabels table va.labels) 0.4

def scoresStage3 (table : RuleTable) (va : VisionAnalysis) (ctx : SlackContext) :
    List (String × ℚ) :=
  addWeighted (scoresStage2 table va ctx) (analyzeTextPresence table va.text) 0.3

/-- Step 4: face-count adjustments. -/
def faceAdjust (scores : List (String × ℚ)) (va : VisionAnalysis) :
    List (String × ℚ) :=
  match va.faces with
  | none => scores
  | some faceCount =>
    if faceCount == 1 then
      bump scores catSolo (fun s => qmin (s + 0.25) 1)
    else if faceCount ≥ 2 then
      bump (bump scores catGroup (fun s => qmin (s + 0.30) 1))
        catSolo (fun s => qmax (s - 0.20) 0)
    else if faceCount == 0 then
      bump (bump (bump scores catUI (fun s => qmin (s + 0.10) 1))
          catGame (fun s => qmin (s + 0.10) 1))
        catEtc (fun s => qmin (s + 0.05) 1)
    else scores

/-- Step 5: text-length adjustments. -/
def textLenAdjust (scores : List (String × ℚ)) (va : VisionAnalysis) :
    List (String × ℚ) :=
  if va.text.hasText then
    let textLength := va.text.full.length
    if textLength < 120 then
      bump scores catSolo (fun s => qmin (s + 0.15) 1)
    else if textLength > 180 then
      bump (bump scores catGroup (fun s => qmin (s + 0.20) 1))
        catSolo (fun s => qmax (s - 0.15) 0)
    else scores
  else scores

/-- Step 6: brand-logo detection. -/
def logoAdjust (scores : List (String × ℚ)) (va : VisionAnalysis) :
    List (String × ℚ) :=
  if va.text.hasText then
    let text := upperStr va.text.full
    let textLength := va.text.full.length
    let hasLogos := strIncludes text "DYNAMITE" || strIncludes text "BLUE" ||
      strIncludes text "ERHA" || strIncludes text "ERHAV" || strIncludes text "ERHAVEN"
    if hasLogos && decide (textLength < 150) then
      bump scores catSolo (fun s => qmin (s + 0.10) 1)
    else scores
  else scores

/-- Step 7: color-dominance adjustments. -/
def colorAdjust (scores : List (String × ℚ)) (va : VisionAnalysis) :
    List (String × ℚ) :=
  match va.colors with
  | [] => scores
  | topColor :: _ =>
    let topColorDominance := topColor.pixelFraction
    if topColorDominance > 0.4 then
      bump scores catSolo (fun s => qmin (s + 0.05) 1)
    else if topColorDominance < 0.25 && decide (va.colors.length ≥ 3) then
      bump scores catGroup (fun s => qmin (s + 0.05) 1)
    else scores

/-- Step 8: multiply each score by the priority of its category. -/
def applyPriority (table : RuleTable) (scores : List (String × ℚ)) :
    List (String × ℚ) :=
  scores.map (fun cs =>
    match table.find? (fun cr => cr.1 == cs.1) with
    | some cr => (cs.1, cs.2 * cr.2.priority)
    | none => cs)

/-- Final per-category scores, after adjustments and priority scaling. -/
def finalScores (table : RuleTable) (va : VisionAnalysis) (ctx : SlackContext) :
    List (String × ℚ) :=
  applyPriority table
    (colorAdjust (logoAdjust (textLenAdjust (faceAdjust (scoresStage3 table va ctx) va) va) va) va)

/-- Insert into a descending-sorted list, after strictly greater elements and
before equal ones (the element being inserted comes earlier in the input). -/
def insertByScore (x : String × ℚ) : List (String × ℚ) → List (String × ℚ)
  | [] => [x]
  | y :: ys => if y.2 > x.2 then y :: insertByScore x ys else x :: y :: ys

/-- Stable descending sort by score: `entries.sort((a, b) => b[1] - a[1])`
with the ES2019 stability guarantee. A stable descending sort has a unique
result, so stable insertion sort models it exactly. -/
def sortByScoreDesc : List (String × ℚ) → List (String × ℚ)
  | [] => []
  | x :: xs => insertByScore x (sortByScoreDesc xs)

/-- `determineMethod` (lines 601-614). -/
def determineMethod (keywordScores labelScores : List (String × ℚ))
    (topCategory : String) : String :=
  let keywordScore := lookupD keywordScores topCategory 0
  let labelScore := lookupD labelScores topCategory 0
  if keywordScore > 0.5 && labelScore > 0.5 then "hybrid"
  else if keywordScore > 0.5 then "keyword_match"
  else if labelScore > 0.5 then "vision_api"
  else "low_confidence"

/-- Result of `classifyImage`. `alternatives` holds
`(name, confidence, score)` for ranks 2 and 3. -/
structure ClassificationResult where
  category : String
  confidence : ℚ
  method : String
  alternatives : List (String × ℚ × ℚ)
  scores : List (String × ℚ)
deriving DecidableEq

/-- `classifyImage(visionAnalysis, slackContext)` (lines 295-441); the unused
`existingCategories` parameter is omitted. Returns `none` only for an empty
rule table (where the JS would crash reading `sortedCategories[0]`). -/
def classifyImage (table : RuleTable) (va : VisionAnalysis) (ctx : SlackContext) :
    Option ClassificationResult :=
  let scores := finalScores table va ctx
  let sorted := sortByScoreDesc scores
  match sorted with
  | [] => none
  | top :: rest =>
    some
      { category := top.1
        confidence := qmin top.2 1
        method := determineMethod (analyzeKeywords table ctx)
          (analyzeVisionLabels table va.labels) top.1
        alternatives := (rest.take 2).map (fun cs => (cs.1, qmin cs.2 1, cs.2))
        scores := scores }

/-! ## Upload Store (src/utils/database.js)

The `uploads` table is modelled as an ordered list of rows. SQL column
values are modelled by `Val` (TEXT, INTEGER or NULL). -/

/-- A column value: string, integer or NULL. -/
inductive Val where
  | s (v : String)
  | n (v : Nat)
  | null
deriving DecidableEq

/-- One row of the `uploads` table. `rowid` models the AUTOINCREMENT
primary key `id`; `slack_file_id` carries the UNIQUE constraint. -/
structure UploadRow where
  rowid : Nat
  slack_file_id : String
  slack_user_id : Val
  slack_user_name : Val
  channel_id : Val
  original_filename : Val
  file_size : Val
  mime_type : Val
  drive_file_id : Val
  drive_file_name : Val
  drive_file_url : Val
  drive_folder_path : Val
  status : Val
  error_message : Val
  retry_count : Val
  created_at : Val
  uploaded_at : Val
deriving DecidableEq

/-- The database state. -/
structure Db where
  uploads : List UploadRow
deriving DecidableEq

/-- A storage error as surfaced by better-sqlite3: `error.code` plus a
message. A unique-constraint violation carries code
`SQLITE_CONSTRAINT_UNIQUE`. -/
structure DbError where
  code : String
  message : String
deriving DecidableEq

/-- `fileExists(slackFileId)` (database.js lines 332-341):
`SELECT 1 FROM uploads WHERE slack_file_id = ? LIMIT 1`. -/
def fileExists (db : Db) (slackFileId : String) : Bool :=
  db.uploads.any (fun r => r.slack_file_id == slackFileId)

/-- Input of `insertUpload`. Optional JS fields that are defaulted with
`||` are `Option` (`slackUserName || null`, `fileSize || null`,
`mimeType || null`, `status || 'pending'`). -/
structure InsertData where
  slackFileId : String
  slackUserId : String
  slackUserName : Option String
  channelId : String
  originalFilename : String
  fileSize : Option Nat
  mimeType : Option String
  status : Option String
deriving DecidableEq

/-- The row created by the INSERT statement of `insertUpload`, with the
schema defaults for the columns it does not set. -/
def rowOfInsert (data : InsertData) (rowid : Nat) : UploadRow :=
  { rowid := rowid
    slack_file_id := data.slackFileId
    slack_user_id := .s data.slackUserId
    slack_user_name := match data.slackUserName with | some u => .s u | none => .null
    channel_id := .s data.channelId
    original_filename := .s data.originalFilename
    file_size := match data.fileSize with | some v => .n v | none => .null
    mime_type := match data.mimeType with | some v => .s v | none => .null
    drive_file_id := .null
    drive_file_name := .null
    drive_file_url := .null
    drive_folder_path := .null
    status := .s (data.status.getD "pending")
    error_message := .null
    retry_count := .n 0
    created_at := .s "CURRENT_TIMESTAMP"
    uploaded_at := .null }

/-- The `stmt.run` of `insertUpload`: either an injected storage fault
(`fault`, modelling any error the driver may raise), a unique-constraint
violation on `slack_file_id`, or a successful insert returning
`lastInsertRowid` (modelled as one past the current row count). -/
def insertStmtRun (db : Db) (data : InsertData) (fault : Option DbError) :
    Except DbError (Db × Nat) :=
  match fault with
  | some e => .error e
  | none =>
    if fileExists db data.slackFileId then
      .error ⟨"SQLITE_CONSTRAINT_UNIQUE", "UNIQUE constraint failed: uploads.slack_file_id"⟩
    else
      let rowid := db.uploads.length + 1
      .ok ({ uploads := db.uploads ++ [rowOfInsert data rowid] }, rowid)

/-- `insertUpload(data)` (database.js lines 128-168): returns the new row
id, or `none` when the caught error has code `SQLITE_CONSTRAINT_UNIQUE`;
any other caught error is rethrown. -/
def insertUpload (db : Db) (data : InsertData) (fault : Option DbError) :
    Db × Except DbError (Option Nat) :=
  match insertStmtRun db data fault with
  | .ok (db2, rowid) => (db2, .ok (some rowid))
  | .error e =>
    if e.code == "SQLITE_CONSTRAINT_UNIQUE" then (db, .ok none)
    else (db, .error e)

/-- The allow-list of `updateUpload` (database.js lines 177-186). -/
def allowedFields : List String :=
  ["status", "drive_file_id", "drive_file_name", "drive_file_url",
   "drive_folder_path", "error_message", "retry_count", "uploaded_at"]

/-- Set one named column of a row; any name outside the schema leaves the
row unchanged (only allow-listed names are ever passed by `updateUpload`). -/
def setField (r : UploadRow) (f : String) (v : Val) : UploadRow :=
  match f with
  | "status" => { r with status := v }
  | "drive_file_id" => { r with drive_file_id := v }
  | "drive_file_name" => { r with drive_file_name := v }
  | "drive_file_url" => { r with drive_file_url := v }
  | "drive_folder_path" => { r with drive_folder_path := v }
  | "error_message" => { r with error_message := v }
  | "retry_count" => { r with retry_count := v }
  | "uploaded_at" => { r with uploaded_at := v }
  | _ => r

/-- Read one named column of a row (`Val` columns only). -/
def getField (r : UploadRow) (f : String) : Val :=
  match f with
  | "slack_user_id" => r.slack_user_id
  | "slack_user_name" => r.slack_user_name
  | "channel_id" => r.channel_id
  | "original_filename" => r.original_filename
  | "file_size" => r.file_size
  | "mime_type" => r.mime_type
  | "drive_file_id" => r.drive_file_id
  | "drive_file_name" => r.drive_file_name
  | "drive_file_url" => r.drive_file_url
  | "drive_folder_path" => r.drive_folder_path
  | "status" => r.status
  | "error_message" => r.error_message
  | "retry_count" => r.retry_count
  | "created_at" => r.created_at
  | "uploaded_at" => r.uploaded_at
  | _ => .null

/-- An update object: field names with values, unique keys (a JS object
cannot repeat a key; `updates[f]` is the first and only binding). -/
abbrev Updates := List (String × Val)

/-- JS `updates[f]`. -/
def updVal (updates : Updates) (f : String) : Val :=
  match updates.find? (fun kv => kv.1 == f) with
  | some kv => kv.2
  | none => .null

/-- `Object.keys(updates).filter(key => allowedFields.includes(key))`. -/
def acceptedFields (updates : Updates) : List String :=
  (updates.map Prod.fst).filter (fun k => allowedFields.contains k)

/-- Apply the accepted fields of an update object to one row (the SET
clause built from `fields`). -/
def applyUpdates (r : UploadRow) (updates : Updates) : UploadRow :=
  (acceptedFields updates).foldl (fun r f => setField r f (updVal updates f)) r

/-- `updateUpload(slackFileId, updates)` (database.js lines 176-224):
filters the update keys through the allow-list, returns `false` without
touching the database when no field survives, else runs
`UPDATE uploads SET ... WHERE slack_file_id = ?` and returns whether any
row matched (`info.changes > 0`). -/
def updateUpload (db : Db) (slackFileId : String) (updates : Updates) : Db × Bool :=
  let fields := acceptedFields updates
  if fields.isEmpty then
    (db, false)
  else
    let changes := (db.uploads.filter (fun r => r.slack_file_id == slackFileId)).length
    let db2 : Db :=
      { uploads := db.uploads.map (fun r =>
          if r.slack_file_id == slackFileId then applyUpdates r updates else r) }
    (db2, decide (changes > 0))

/-! ## Event deduplicator (src/server.js lines 20-30 and 419-427)

`processedEvents` is a `Set` of event ids; a `setInterval` handler clears
the whole set every `EVENT_TTL` milliseconds. Time is modelled as
milliseconds since process start; the timer has fired `t / EVENT_TTL`
times by time `t` (checks are taken strictly between boundary instants). -/

def EVENT_TTL : Nat := 60 * 60 * 1000

/-- The dedup state: the membership set plus the number of interval
firings already applied. -/
structure DedupState where
  seen : List String
  clearsDone : Nat
deriving DecidableEq

/-- Apply every `setInterval` firing scheduled before time `t`: each firing
runs `processedEvents.clear()`, so the net effect is one bulk wipe. -/
def advanceTo (s : DedupState) (t : Nat) : DedupState :=
  if t / EVENT_TTL > s.clearsDone then { seen := [], clearsDone := t / EVENT_TTL }
  else s

/-- The dedup check of the `/slack/events` handler at time `t`:
`processedEvents.has(event_id)` then `processedEvents.add(event_id)`.
Returns whether the event is processed (not a duplicate). -/
def shouldProcess (s : DedupState) (t : Nat) (eventId : String) :
    Bool × DedupState :=
  let s := advanceTo s t
  if s.seen.contains eventId then (false, s)
  else (true, { s with seen := eventId :: s.seen })

/-! ## Retry controller (src/server.js lines 177-302)

`processUploadWithRetry` is modelled as a trace of collaborator calls plus
a result (`throw error` at the end of the terminal branch). The per-attempt
behaviour of the external collaborators is an oracle `Nat → AttemptOutcome`.
Database writes appear in the trace as `Act.dbUpdate` with the exact
field-value object passed to `updateUpload` (the Notion logger calls are
`.catch`-guarded fire-and-forget side calls and are not traced). -/

/-- Slack file metadata used by the retry controller. -/
structure FileInfo where
  id : String
  name : String
  mimetype : String
  size : Nat
  urlPrivateDownload : String
  channels : List String
deriving DecidableEq

/-- Result of `driveService.uploadFile`. -/
structure DriveFile where
  id : String
  name : String
  url : String
  folderId : String
deriving DecidableEq

/-- What the external collaborators do on one attempt: `download` and
`driveUp` are `some msg` when the call rejects with that error message;
the two transport fields are `some msg` when the underlying Slack
`sendMessage` call inside the notification helpers rejects. -/
structure AttemptOutcome where
  download : Option String
  driveUp : Option String
  completionTransport : Option String
  errorTransport : Option String
deriving DecidableEq

/-- One observable collaborator call. -/
inductive Act where
  | dbUpdate (fileId : String) (fields : List (String × Val))
  | download (url : String)
  | driveUpload (filename : String)
  | notifySuccess (channelId : String)
  | notifyFailure (channelId : String) (errMsg : String)
  | sleep (ms : Nat)
deriving DecidableEq

/-- `slackService.sendCompletionMessage` (slackService.js lines 210-257):
the remote send is wrapped in try/catch and a failure is only logged
("notification failure must not fail the upload"), so the helper returns
normally for every transport outcome. -/
def sendCompletionMessage (channelId : String) (transport : Option String) :
    List Act × Except String Unit :=
  match transport with
  | some _ => ([Act.notifySuccess channelId], .ok ())
  | none => ([Act.notifySuccess channelId], .ok ())

/-- `slackService.sendErrorMessage` (slackService.js lines 267-305): same
internal try/catch, never rejects. -/
def sendErrorMessage (channelId : String) (errMsg : String)
    (transport : Option String) : List Act × Except String Unit :=
  match transport with
  | some _ => ([Act.notifyFailure channelId errMsg], .ok ())
  | none => ([Act.notifyFailure channelId errMsg], .ok ())

/-- The `updateUpload` payload at the start of an attempt:
`{status: 'processing', retry_count: attempt - 1}`. -/
def procUpd (fi : FileInfo) (attempt : Nat) : Act :=
  .dbUpdate fi.id [("status", .s "processing"), ("retry_count", .n (attempt - 1))]

/-- The `updateUpload` payload of the success branch. `now` stands for
`new Date().toISOString()`. -/
def completedUpd (fi : FileInfo) (drive : DriveFile) (now : String) : Act :=
  .dbUpdate fi.id
    [("status", .s "completed"), ("drive_file_id", .s drive.id),
     ("drive_file_name", .s drive.name), ("drive_file_url", .s drive.url),
     ("drive_folder_path", .s drive.folderId), ("uploaded_at", .s now)]

/-- The `updateUpload` payload of the terminal-failure branch. -/
def failedUpd (fi : FileInfo) (errMsg : String) (maxAttempts : Nat) : Act :=
  .dbUpdate fi.id
    [("status", .s "failed"), ("error_message", .s errMsg),
     ("retry_count", .n maxAttempts)]

/-- The body of the `try` block after the initial status update: download,
Drive upload, success update, completion message. Returns the trace of the
calls made and `some msg` when a rejection jumps to the catch block. -/
def tryBody (fi : FileInfo) (drive : DriveFile) (now : String)
    (o : AttemptOutcome) : List Act × Option String :=
  match o.download with
  | some m => ([Act.download fi.urlPrivateDownload], some m)
  | none =>
    match o.driveUp with
    | some m => ([Act.download fi.urlPrivateDownload, Act.driveUpload fi.name], some m)
    | none =>
      let acts := [Act.download fi.urlPrivateDownload, Act.driveUpload fi.name,
        completedUpd fi drive now]
      match fi.channels.head? with
      | some channelId =>
        match sendCompletionMessage channelId o.completionTransport with
        | (nActs, .ok _) => (acts ++ nActs, none)
        | (nActs, .error m) => (acts ++ nActs, some m)
      | none => (acts, none)

/-- Retry configuration (`config.retry`). -/
structure RetryConfig where
  maxAttempts : Nat
  delayMs : Nat
deriving DecidableEq

/-- `processUploadWithRetry(fileInfo, attempt)` from attempt number
`attempt`. The first argument is recursion fuel: the JS recursion is
guarded by `attempt < maxAttempts`, so any fuel of at least
`maxAttempts + 1 - attempt` makes the `0` branch unreachable (see
`processUploadWithRetry` and `traceFrom`). -/
def runRetry (cfg : RetryConfig) (o : Nat → AttemptOutcome) (fi : FileInfo)
    (drive : DriveFile) (now : String) : Nat → Nat → List Act × Except String Unit
  | 0, _ => ([], .ok ())
  | fuel + 1, attempt =>
    let (bodyActs, err) := tryBody fi drive now (o attempt)
    let acts := procUpd fi attempt :: bodyActs
    match err with
    | none => (acts, .ok ())
    | some msg =>
      if attempt < cfg.maxAttempts then
        let rest := runRetry cfg o fi drive now fuel (attempt + 1)
        (acts ++ Act.sleep (2 ^ attempt * cfg.delayMs) :: rest.1, rest.2)
      else
        let notifyActs :=
          match fi.channels.head? with
          | some channelId => (sendErrorMessage channelId msg (o attempt).errorTransport).1
          | none => []
        (acts ++ failedUpd fi msg cfg.maxAttempts :: notifyActs, .error msg)

/-- The whole `processUploadWithRetry(fileInfo)` run (initial attempt 1). -/
def processUploadWithRetry (cfg : RetryConfig) (o : Nat → AttemptOutcome)
    (fi : FileInfo) (drive : DriveFile) (now : String) :
    List Act × Except String Unit :=
  runRetry cfg o fi drive now cfg.maxAttempts 1

/-- The run from attempt `attempt` onward, with exactly sufficient fuel. -/
def traceFrom (cfg : RetryConfig) (o : Nat → AttemptOutcome) (fi : FileInfo)
    (drive : DriveFile) (now : String) (attempt : Nat) :
    List Act × Except String Unit :=
  runRetry cfg o fi drive now (cfg.maxAttempts + 1 - attempt) attempt

/-! ## Intake (src/server.js lines 308-404) -/

/-- The normalized `file_shared` event. -/
structure SlackFileEvent where
  file_id : String
  user_id : String
  channel_id : String
deriving DecidableEq

/-- Outcome tag of one `handleFileSharedEvent` run. -/
inductive IntakeResult where
  | duplicateExisting
  | invalid
  | duplicateInsert
  | queued
  | errorCaught
deriving DecidableEq

/-- `validator.validateFileUpload` result: `{valid, errors}`. -/
structure Validation where
  valid : Bool
  errors : List String
deriving DecidableEq

/-- `handleFileSharedEvent(event)`: dedup against the Upload Store, fetch
metadata, validate, insert, enqueue. The collaborator responses
(`getFileInfo`, the validator, `getUserInfo`) are passed as inputs; the
Notion call is fire-and-forget and untraced. Returns the new database
state, the list of file ids handed to `queueService.addUploadTask`, and an
outcome tag. -/
def handleFileSharedEvent (db : Db) (ev : SlackFileEvent) (fileInfo : FileInfo)
    (validation : Validation) (userName : Option String) :
    Db × List String × IntakeResult :=
  if fileExists db ev.file_id then
    (db, [], .duplicateExisting)
  else if !validation.valid then
    let ins := insertUpload db
      { slackFileId := ev.file_id, slackUserId := ev.user_id,
        slackUserName := none, channelId := ev.channel_id,
        originalFilename := if fileInfo.name == "" then "unknown" else fileInfo.name,
        fileSize := some fileInfo.size, mimeType := some fileInfo.mimetype,
        status := some "failed" } none
    let upd := updateUpload ins.1 ev.file_id
      [("error_message", .s (String.intercalate "; " validation.errors))]
    (upd.1, [], .invalid)
  else
    match insertUpload db
      { slackFileId := ev.file_id, slackUserId := ev.user_id,
        slackUserName := userName, channelId := ev.channel_id,
        originalFilename := fileInfo.name, fileSize := some fileInfo.size,
        mimeType := some fileInfo.mimetype, status := some "pending" } none with
    | (db1, .ok (some _rowid)) => (db1, [ev.file_id], .queued)
    | (db1, .ok none) => (db1, [], .duplicateInsert)
    | (db1, .error _) => (db1, [], .errorCaught)

/-- Number of records in the Upload Store for one source file id. -/
def countRecords (db : Db) (slackFileId : String) : Nat :=
  (db.uploads.filter (fun r => r.slack_file_id == slackFileId)).length

/-! ## Statement-side definitions for the claims -/

/-- Whether a detected label matches a rule label: case-insensitive
substring containment in either direction, as in `analyzeVisionLabels`. -/
def labelMatches (detected ruleLabel : String) : Bool :=
  strIncludes (lowerStr detected) (lowerStr ruleLabel) ||
    strIncludes (lowerStr ruleLabel) (lowerStr detected)

/-- Stated from the words of claim C7: the label score is the maximum
confidence over all detected labels matching the positive label list,
minus 15 percent of the confidence of the first detected label matching
each anti-label, floored at 0. -/
def claimLabelScore (labels : List VisionLabel) (rules : Rule) : ℚ :=
  let matching := labels.filter
    (fun l => rules.visionLabels.any (fun vl => labelMatches l.description vl))
  let base := matching.foldl (fun acc l => qmax acc l.score) 0
  let penalty := rules.antiLabels.foldl
    (fun acc al =>
      match labels.find? (fun l => labelMatches l.description al) with
      | some l => acc + l.score * 0.15
      | none => acc) 0
  qmax 0 (base - penalty)

/-- The amended label score: the base is the maximum over the positive
rule labels of the confidence of the FIRST detected label (in detection
order) matching that rule label; the anti-label penalty is 15 percent of
the confidence of the first detected label matching each anti-label; the
result is floored at 0. -/
def amendedLabelScore (labels : List VisionLabel) (rules : Rule) : ℚ :=
  let base := rules.visionLabels.foldl
    (fun acc vl =>
      match labels.find? (fun l => labelMatches l.description vl) with
      | some l => qmax acc l.score
      | none => acc) 0
  let penalty := rules.antiLabels.foldl
    (fun acc al =>
      match labels.find? (fun l => labelMatches l.description al) with
      | some l => acc + l.score * 0.15
      | none => acc) 0
  qmax 0 (base - penalty)

/-- The detected labels of the C7 counterexample. -/
def c7labels : List VisionLabel := [⟨"logo design", 3/10⟩, ⟨"logo", 9/10⟩]

/-- The empty signal set: no labels, no OCR text, no face count, no
colors. -/
def emptyVA : VisionAnalysis := ⟨[], ⟨false, ""⟩, none, []⟩

/-- Empty message context. -/
def emptyCtx : SlackContext := ⟨none⟩

/-- Whether a trace action is the backoff sleep. -/
def isSleep : Act → Bool
  | .sleep _ => true
  | _ => false

/-- Whether a trace action is the attempt-start update
`{status: 'processing', ...}`. -/
def startsProcessing : Act → Bool
  | .dbUpdate _ (("status", Val.s "processing") :: _) => true
  | _ => false

/-- An overlay whose only entry flags `기타` as `noChanges` (C8 witness
input). -/
def noChangesOverlay : String → Option LearnedRule :=
  fun c => if c == catEtc then some ⟨true, none, some (some true), ["x"], ["y"], ["z"]⟩ else none

/-- Outcome oracle: every attempt fails at the download step. -/
def oDownFail : Nat → AttemptOutcome := fun _ => ⟨some "network down", none, none, none⟩

/-- Outcome oracle: attempt 1 succeeds end to end but the success
notification transport fails. -/
def oNotifyFail : Nat → AttemptOutcome := fun _ => ⟨none, none, some "slack 500", none⟩

/-- A concrete file with one sharing channel. -/
def fiW : FileInfo :=
  ⟨"F0AAAAAAA1", "cat.png", "image/png", 1024, "https://files.example/cat.png", ["C0AAAAAAA1"]⟩

/-- A concrete Drive upload result. -/
def driveW : DriveFile :=
  ⟨"drv1", "cat.png", "https://drive.example/drv1", "folder1"⟩

/-- A concrete `file_shared` event. -/
def evW : SlackFileEvent := ⟨"F0AAAAAAA1", "U0AAAAAAA1", "C0AAAAAAA1"⟩

/-- A concrete upload row for the C9 witness. -/
def rowW : UploadRow :=
  { rowid := 1, slack_file_id := "F0AAAAAAA1", slack_user_id := .s "U0AAAAAAA1",
    slack_user_name := .null, channel_id := .s "C0AAAAAAA1",
    original_filename := .s "cat.png", file_size := .n 1024,
    mime_type := .s "image/png", drive_file_id := .null, drive_file_name := .null,
    drive_file_url := .null, drive_folder_path := .null, status := .s "pending",
    error_message := .null, retry_count := .n 0, created_at := .s "CURRENT_TIMESTAMP",
    uploaded_at := .null }

/-- A concrete insert candidate for witnesses. -/
def dataW : InsertData :=
  { slackFileId := "F0AAAAAAA1", slackUserId := "U0AAAAAAA1",
    slackUserName := none, channelId := "C0AAAAAAA1",
    originalFilename := "cat.png", fileSize := some 1024,
    mimeType := some "image/png", status := none }

/-! # Theorems for the claims -/

/-- C2: the deduplicator forgets ids in bulk. An event id first checked one
millisecond before the hourly `setInterval` firing and checked again two
milliseconds later — well inside the one-hour dedup window — passes the
membership check both times: `shouldProcess` returns `true` twice, so the
event is reprocessed, contradicting the claimed per-id rolling window. -/
theorem dedup_bulk_clear_forgets_within_window :
    (shouldProcess ⟨[], 0⟩ (EVENT_TTL - 1) "Ev0AAAAAA1").1 = true ∧
    (shouldProcess (shouldProcess ⟨[], 0⟩ (EVENT_TTL - 1) "Ev0AAAAAA1").2
        (EVENT_TTL + 1) "Ev0AAAAAA1").1 = true ∧
    (EVENT_TTL + 1) - (EVENT_TTL - 1) < EVENT_TTL := by
  refine ⟨by decide, by decide, by decide⟩

/-- C6 counterexample: on the empty signal set (no labels, no OCR text, no
face count, no colors, empty context) `classifyImage` over the loaded rule
table returns the game-screenshot category, not the `기타` fallback the
claim names. -/
theorem classify_empty_signals_winner_not_fallback :
    (classifyImage CATEGORY_RULES emptyVA emptyCtx).map ClassificationResult.category
      = some catGame ∧ catGame ≠ catEtc := by
  refine ⟨by with_unfolding_all rfl, by decide⟩

/-- C6 amended: on an empty signal set `classifyImage` does not propagate
an error — it returns a result — but the winner is the highest-priority
no-text category `게임 스크린샷` (score 0.3 × priority 0.86 = 129/500),
ranked above `기타` (0.3 × 0.79), with method `low_confidence`. -/
theorem classify_empty_signals_degrades_to_game :
    (classifyImage CATEGORY_RULES emptyVA emptyCtx).isSome = true ∧
    (classifyImage CATEGORY_RULES emptyVA emptyCtx).map ClassificationResult.category
      = some "게임 스크린샷" ∧
    (classifyImage CATEGORY_RULES emptyVA emptyCtx).map ClassificationResult.confidence
      = some (129 / 500) ∧
    (classifyImage CATEGORY_RULES emptyVA emptyCtx).map ClassificationResult.method
      = some "low_confidence" ∧
    lookupD (finalScores CATEGORY_RULES emptyVA emptyCtx) catEtc 0 = 237 / 1000 := by
  refine ⟨by with_unfolding_all rfl, by with_unfolding_all rfl,
    by with_unfolding_all rfl, by with_unfolding_all rfl, by with_unfolding_all rfl⟩

/-- C10: `insertUpload` converts exactly the unique-constraint violation
into the silent duplicate signal `none`; any other storage error raised by
the insert statement is rethrown and never yields the duplicate signal. -/
theorem insert_upload_error_contract :
    ∀ (db : Db) (data : InsertData) (fault : Option DbError),
      (∀ e, fault = some e → e.code ≠ "SQLITE_CONSTRAINT_UNIQUE" →
        insertUpload db data fault = (db, .error e)) ∧
      (fault = none → fileExists db data.slackFileId = true →
        insertUpload db data fault = (db, .ok none)) ∧
      (fault = none → fileExists db data.slackFileId = false →
        (insertUpload db data fault).2 = .ok (some (db.uploads.length + 1))) ∧
      ((insertUpload db data fault).2 = .ok none →
        ∃ e, insertStmtRun db data fault = .error e ∧
          e.code = "SQLITE_CONSTRAINT_UNIQUE") := by
  intro db data fault
  refine ⟨?_, ?_, ?_, ?_⟩
  · intro e he hne
    subst he
    simp [insertUpload, insertStmtRun, beq_iff_eq, hne]
  · intro he hex
    subst he
    simp [insertUpload, insertStmtRun, hex]
  · intro he hex
    subst he
    simp [insertUpload, insertStmtRun, hex]
  · intro hnone
    rcases fault with _ | e
    · by_cases hex : fileExists db data.slackFileId = true
      · exact ⟨⟨"SQLITE_CONSTRAINT_UNIQUE", "UNIQUE constraint failed: uploads.slack_file_id"⟩,
          by simp [insertStmtRun, hex], rfl⟩
      · simp only [Bool.not_eq_true] at hex
        simp [insertUpload, insertStmtRun, hex] at hnone
    · by_cases hc : e.code = "SQLITE_CONSTRAINT_UNIQUE"
      · exact ⟨e, by simp [insertStmtRun], hc⟩
      · simp [insertUpload, insertStmtRun, beq_iff_eq, hc] at hnone

/-- C10 witness: a non-unique storage error (`SQLITE_IOERR`) is rethrown
unchanged; a duplicate insert on an existing id yields `.ok none`. -/
theorem insert_upload_error_contract_witness :
    insertUpload ⟨[]⟩ dataW (some ⟨"SQLITE_IOERR", "disk I/O error"⟩)
      = (⟨[]⟩, .error ⟨"SQLITE_IOERR", "disk I/O error"⟩) ∧
    insertUpload ⟨[rowW]⟩ dataW none = (⟨[rowW]⟩, .ok none) :=
  ⟨(insert_upload_error_contract ⟨[]⟩ dataW (some ⟨"SQLITE_IOERR", "disk I/O error"⟩)).1
      ⟨"SQLITE_IOERR", "disk I/O error"⟩ rfl (by decide),
    (insert_upload_error_contract ⟨[rowW]⟩ dataW none).2.1 rfl (by decide)⟩

/-- C1: intake is idempotent per source-file id. A first intake of a valid
notification on a store not containing the id creates exactly one record
and queues the upload; a second intake for the same `file_id` — whatever
its other inputs — changes nothing, queues nothing, and reports the
duplicate, leaving exactly one record. -/
theorem intake_idempotent :
    ∀ (db : Db) (ev ev2 : SlackFileEvent) (fi fi2 : FileInfo) (errs : List String)
      (val2 : Validation) (un un2 : Option String),
      fileExists db ev.file_id = false →
      ev2.file_id = ev.file_id →
      countRecords (handleFileSharedEvent db ev fi ⟨true, errs⟩ un).1 ev.file_id = 1 ∧
      (handleFileSharedEvent db ev fi ⟨true, errs⟩ un).2.2 = .queued ∧
      handleFileSharedEvent (handleFileSharedEvent db ev fi ⟨true, errs⟩ un).1
          ev2 fi2 val2 un2
        = ((handleFileSharedEvent db ev fi ⟨true, errs⟩ un).1, [],
            .duplicateExisting) := by
  intro db ev ev2 fi fi2 errs val2 un un2 hex hid
  have hall : ∀ r ∈ db.uploads, ¬((r.slack_file_id == ev.file_id) = true) := by
    intro r hr hcontra
    have hexT : fileExists db ev.file_id = true := by
      simp only [fileExists, List.any_eq_true]
      exact ⟨r, hr, hcontra⟩
    rw [hexT] at hex
    exact Bool.true_eq_false.mp hex
  have hfilter : db.uploads.filter (fun r => r.slack_file_id == ev.file_id) = [] := by
    rw [List.filter_eq_nil_iff]
    exact hall
  have h1 : handleFileSharedEvent db ev fi ⟨true, errs⟩ un
      = (⟨db.uploads ++ [rowOfInsert
            ⟨ev.file_id, ev.user_id, un, ev.channel_id, fi.name, some fi.size,
              some fi.mimetype, some "pending"⟩ (db.uploads.length + 1)]⟩,
          [ev.file_id], .queued) := by
    simp [handleFileSharedEvent, insertUpload, insertStmtRun, hex]
  refine ⟨?_, ?_, ?_⟩
  · rw [h1]
    simp [countRecords, List.filter_append, hfilter, rowOfInsert]
  · rw [h1]
  · rw [h1]
    simp [handleFileSharedEvent, fileExists, List.any_append, hid, rowOfInsert]

/-- C1 witness: on the empty store, intaking the concrete event twice
leaves one record; the second call is a no-op reporting the duplicate. -/
theorem intake_idempotent_witness :
    countRecords (handleFileSharedEvent ⟨[]⟩ evW fiW ⟨true, []⟩ none).1 evW.file_id
      = 1 ∧
    (handleFileSharedEvent ⟨[]⟩ evW fiW ⟨true, []⟩ none).2.2 = .queued ∧
    handleFileSharedEvent (handleFileSharedEvent ⟨[]⟩ evW fiW ⟨true, []⟩ none).1
        evW fiW ⟨true, []⟩ none
      = ((handleFileSharedEvent ⟨[]⟩ evW fiW ⟨true, []⟩ none).1, [],
          .duplicateExisting) :=
  intake_idempotent ⟨[]⟩ evW evW fiW fiW [] ⟨true, []⟩ none none (by decide) rfl

/-! ### Helper lemmas for the Upload Store frame claim -/

theorem getField_setField_ne (r : UploadRow) (f : String) (v : Val) (f' : String)
    (h : f' ≠ f) : getField (setField r f v) f' = getField r f' := by
  unfold setField
  split <;> (unfold getField; split <;> simp_all)

theorem setField_fileId (r : UploadRow) (f : String) (v : Val) :
    (setField r f v).slack_file_id = r.slack_file_id := by
  unfold setField
  split <;> rfl

theorem setField_rowid (r : UploadRow) (f : String) (v : Val) :
    (setField r f v).rowid = r.rowid := by
  unfold setField
  split <;> rfl

theorem getField_foldl_ne (u : Updates) (gs : List String) (r : UploadRow)
    (f : String) (h : f ∉ gs) :
    getField (gs.foldl (fun r g => setField r g (updVal u g)) r) f = getField r f := by
  induction gs generalizing r with
  | nil => rfl
  | cons g gs ih =>
    simp only [List.mem_cons, not_or] at h
    simp only [List.foldl_cons]
    rw [ih _ h.2, getField_setField_ne _ _ _ _ h.1]

theorem foldl_fileId (u : Updates) (gs : List String) (r : UploadRow) :
    (gs.foldl (fun r g => setField r g (updVal u g)) r).slack_file_id
      = r.slack_file_id := by
  induction gs generalizing r with
  | nil => rfl
  | cons g gs ih => simp only [List.foldl_cons]; rw [ih, setField_fileId]

theorem foldl_rowid (u : Updates) (gs : List String) (r : UploadRow) :
    (gs.foldl (fun r g => setField r g (updVal u g)) r).rowid = r.rowid := by
  induction gs generalizing r with
  | nil => rfl
  | cons g gs ih => simp only [List.foldl_cons]; rw [ih, setField_rowid]

theorem acceptedFields_filter (u : Updates) :
    acceptedFields (u.filter (fun kv => allowedFields.contains kv.1))
      = acceptedFields u := by
  induction u with
  | nil => rfl
  | cons kv u ih =>
    simp only [acceptedFields] at ih ⊢
    by_cases hk : allowedFields.contains kv.1 = true
    · rw [List.filter_cons_of_pos (p := fun (x : String × Val) => allowedFields.contains x.1) hk]
      simp only [List.map_cons]
      rw [List.filter_cons_of_pos (p := fun (k : String) => allowedFields.contains k) hk,
        List.filter_cons_of_pos (p := fun (k : String) => allowedFields.contains k) hk, ih]
    · rw [List.filter_cons_of_neg (p := fun (x : String × Val) => allowedFields.contains x.1) hk]
      simp only [List.map_cons]
      rw [List.filter_cons_of_neg (p := fun (k : String) => allowedFields.contains k) hk, ih]

theorem updVal_filter (u : Updates) (f : String)
    (hf : allowedFields.contains f = true) :
    updVal (u.filter (fun kv => allowedFields.contains kv.1)) f = updVal u f := by
  induction u with
  | nil => rfl
  | cons kv u ih =>
    by_cases hk : allowedFields.contains kv.1 = true
    · simp only [updVal]
      rw [List.filter_cons_of_pos (p := fun (x : String × Val) => allowedFields.contains x.1) hk]
      by_cases he : (kv.1 == f) = true
      · rw [List.find?_cons_of_pos (p := fun (x : String × Val) => x.1 == f) _ he, List.find?_cons_of_pos (p := fun (x : String × Val) => x.1 == f) _ he]
      · rw [List.find?_cons_of_neg (p := fun (x : String × Val) => x.1 == f) _ he, List.find?_cons_of_neg (p := fun (x : String × Val) => x.1 == f) _ he]
        simp only [updVal] at ih
        exact ih
    · simp only [updVal]
      rw [List.filter_cons_of_neg (p := fun (x : String × Val) => allowedFields.contains x.1) hk]
      by_cases he : (kv.1 == f) = true
      · exfalso
        have hkf : kv.1 = f := by simpa using he
        rw [hkf] at hk
        exact hk hf
      · rw [List.find?_cons_of_neg (p := fun (x : String × Val) => x.1 == f) _ he]
        simp only [updVal] at ih
        exact ih

theorem mem_acceptedFields_allowed {g : String} {u : Updates}
    (h : g ∈ acceptedFields u) : allowedFields.contains g = true := by
  simp only [acceptedFields, List.mem_filter] at h
  exact h.2

theorem applyUpdates_filter (u : Updates) (r : UploadRow) :
    applyUpdates r (u.filter (fun kv => allowedFields.contains kv.1))
      = applyUpdates r u := by
  unfold applyUpdates
  rw [acceptedFields_filter]
  have : ∀ (gs : List String), (∀ g ∈ gs, allowedFields.contains g = true) →
      ∀ r : UploadRow,
      gs.foldl (fun r g =>
        setField r g (updVal (u.filter (fun kv => allowedFields.contains kv.1)) g)) r
        = gs.foldl (fun r g => setField r g (updVal u g)) r := by
    intro gs
    induction gs with
    | nil => intro _ r; rfl
    | cons g gs ih =>
      intro hall r
      simp only [List.foldl_cons]
      rw [updVal_filter u g (hall g (by simp))]
      exact ih (fun g hg => hall g (by simp [hg])) _
  exact this _ (fun g hg => mem_acceptedFields_allowed hg) r

/-- C9: the `updateUpload` frame. Updating through `updateUpload` is the
same call with the non-allow-listed fields removed (they are silently
dropped, no error); the store changes only at rows matching the id, where
exactly the accepted fields are set; every column not named in the
accepted field set — and the identity columns — is unchanged; and the
call reports `false` when no record matches the id. -/
theorem update_upload_frame :
    ∀ (db : Db) (id : String) (updates : Updates),
      updateUpload db id updates
        = updateUpload db id (updates.filter (fun kv => allowedFields.contains kv.1)) ∧
      (updateUpload db id updates).1.uploads
        = db.uploads.map (fun r =>
            if r.slack_file_id == id then applyUpdates r updates else r) ∧
      (∀ (r : UploadRow) (f : String), f ∉ acceptedFields updates →
        getField (applyUpdates r updates) f = getField r f) ∧
      (∀ r : UploadRow, (applyUpdates r updates).slack_file_id = r.slack_file_id ∧
        (applyUpdates r updates).rowid = r.rowid) ∧
      ((∀ r ∈ db.uploads, (r.slack_file_id == id) = false) →
        (updateUpload db id updates).2 = false) := by
  intro db id updates
  refine ⟨?_, ?_, ?_, ?_, ?_⟩
  · unfold updateUpload
    rw [acceptedFields_filter]
    simp only [applyUpdates_filter]
  · unfold updateUpload
    by_cases hempty : (acceptedFields updates).isEmpty = true
    · have happ : ∀ r : UploadRow, applyUpdates r updates = r := by
        intro r
        unfold applyUpdates
        rw [List.isEmpty_iff.mp hempty]
        rfl
      simp only [hempty, if_true, happ, ite_self]
      exact (List.map_id db.uploads).symm
    · simp [hempty]
  · intro r f hf
    exact getField_foldl_ne updates _ r f hf
  · intro r
    exact ⟨foldl_fileId updates _ r, foldl_rowid updates _ r⟩
  · intro hnm
    unfold updateUpload
    by_cases hempty : (acceptedFields updates).isEmpty = true
    · simp [hempty]
    · have hfil : db.uploads.filter (fun r => r.slack_file_id == id) = [] := by
        rw [List.filter_eq_nil_iff]
        intro r hr
        simp [hnm r hr]
      simp [hempty, hfil]

/-- C9 witness: on a one-row store, an update containing a disallowed
field leaves every other column unchanged and drops the stray field; with
a non-matching id the call returns false. -/
theorem update_upload_frame_witness :
    updateUpload ⟨[rowW]⟩ "F0AAAAAAA1" [("status", .s "completed"), ("rowid", .n 99)]
      = updateUpload ⟨[rowW]⟩ "F0AAAAAAA1"
          ([("status", .s "completed"), ("rowid", .n 99)].filter
            (fun kv => allowedFields.contains kv.1)) ∧
    getField (applyUpdates rowW [("status", .s "completed"), ("rowid", .n 99)])
        "channel_id" = getField rowW "channel_id" ∧
    (updateUpload ⟨[rowW]⟩ "F0XXXXXXX9"
        [("status", .s "completed"), ("rowid", .n 99)]).2 = false :=
  ⟨(update_upload_frame ⟨[rowW]⟩ "F0AAAAAAA1"
      [("status", .s "completed"), ("rowid", .n 99)]).1,
    (update_upload_frame ⟨[rowW]⟩ "F0AAAAAAA1"
      [("status", .s "completed"), ("rowid", .n 99)]).2.2.1 rowW "channel_id" (by decide),
    (update_upload_frame ⟨[rowW]⟩ "F0XXXXXXX9"
      [("status", .s "completed"), ("rowid", .n 99)]).2.2.2.2 (by decide)⟩

/-! ### Helper lemmas for the retry controller -/

theorem sendCompletionMessage_const (ch : String) (t : Option String) :
    sendCompletionMessage ch t = ([Act.notifySuccess ch], .ok ()) := by
  cases t <;> rfl

theorem sendErrorMessage_const (ch msg : String) (t : Option String) :
    sendErrorMessage ch msg t = ([Act.notifyFailure ch msg], .ok ()) := by
  cases t <;> rfl

theorem tryBody_acts_plain (fi : FileInfo) (drive : DriveFile) (now : String)
    (o : AttemptOutcome) :
    ∀ a ∈ (tryBody fi drive now o).1, isSleep a = false ∧ startsProcessing a = false := by
  intro a ha
  rcases o with ⟨d, u, ct, et⟩
  rcases d with _ | m
  · rcases u with _ | m2
    · rcases hc : fi.channels.head? with _ | ch
      · simp [tryBody, hc] at ha
        rcases ha with h | h | h <;> subst h <;> exact ⟨rfl, rfl⟩
      · simp [tryBody, hc, sendCompletionMessage_const] at ha
        rcases ha with h | h | h | h <;> subst h <;> exact ⟨rfl, rfl⟩
    · simp [tryBody] at ha
      rcases ha with h | h <;> subst h <;> exact ⟨rfl, rfl⟩
  · simp [tryBody] at ha
    subst ha
    exact ⟨rfl, rfl⟩

theorem tryBody_congr (fi : FileInfo) (drive : DriveFile) (now : String)
    (o o2 : AttemptOutcome) (hd : o.download = o2.download)
    (hu : o.driveUp = o2.driveUp) :
    tryBody fi drive now o = tryBody fi drive now o2 := by
  unfold tryBody
  rw [hd, hu]
  simp only [sendCompletionMessage_const]

theorem runRetry_succ (cfg : RetryConfig) (o : Nat → AttemptOutcome)
    (fi : FileInfo) (drive : DriveFile) (now : String) (fuel attempt : Nat) :
    runRetry cfg o fi drive now (fuel + 1) attempt
      = match (tryBody fi drive now (o attempt)).2 with
        | none => (procUpd fi attempt :: (tryBody fi drive now (o attempt)).1, .ok ())
        | some msg =>
          if attempt < cfg.maxAttempts then
            (procUpd fi attempt :: (tryBody fi drive now (o attempt)).1
                ++ Act.sleep (2 ^ attempt * cfg.delayMs)
                  :: (runRetry cfg o fi drive now fuel (attempt + 1)).1,
              (runRetry cfg o fi drive now fuel (attempt + 1)).2)
          else
            (procUpd fi attempt :: (tryBody fi drive now (o attempt)).1
                ++ failedUpd fi msg cfg.maxAttempts
                  :: (match fi.channels.head? with
                      | some channelId =>
                        (sendErrorMessage channelId msg (o attempt).errorTransport).1
                      | none => []),
              .error msg) := by
  conv_lhs => rw [runRetry]

/-- C3: the retry delay law. Every attempt `n` (with `1 ≤ n ≤ maxAttempts`)
begins by setting the record to `status = processing, retry_count = n - 1`;
and when attempt `n < maxAttempts` fails, the trace continues with a single
sleep of exactly `2 ^ n * delayMs` milliseconds (the attempt body contains
no sleep) followed by the run from attempt `n + 1`. -/
theorem retry_delay_law :
    ∀ (cfg : RetryConfig) (o : Nat → AttemptOutcome) (fi : FileInfo)
      (drive : DriveFile) (now : String) (n : Nat),
      1 ≤ n → n ≤ cfg.maxAttempts →
      (traceFrom cfg o fi drive now n).1.head? = some (procUpd fi n) ∧
      (∀ msg, n < cfg.maxAttempts → (tryBody fi drive now (o n)).2 = some msg →
        (traceFrom cfg o fi drive now n).1
          = procUpd fi n :: (tryBody fi drive now (o n)).1
              ++ Act.sleep (2 ^ n * cfg.delayMs)
                :: (traceFrom cfg o fi drive now (n + 1)).1 ∧
        (∀ a ∈ (tryBody fi drive now (o n)).1, isSleep a = false)) := by
  intro cfg o fi drive now n h1 h2
  have hfuel : cfg.maxAttempts + 1 - n = (cfg.maxAttempts + 1 - (n + 1)) + 1 := by
    omega
  constructor
  · unfold traceFrom
    rw [hfuel, runRetry_succ]
    rcases (tryBody fi drive now (o n)).2 with _ | msg
    · simp
    · by_cases hlt : n < cfg.maxAttempts
      · simp [hlt]
      · rcases fi.channels.head? with _ | ch <;> simp [hlt]
  · intro msg hlt he
    refine ⟨?_, fun a ha => (tryBody_acts_plain fi drive now (o n) a ha).1⟩
    unfold traceFrom
    rw [hfuel, runRetry_succ, he]
    simp only [hlt, if_true]

/-- C3 witness: with `maxAttempts = 3`, `delayMs = 2000` and every attempt
failing at the download, attempt 1 starts with the
`processing, retry_count = 0` update and is followed by a sleep of
`2 ^ 1 * 2000` milliseconds before attempt 2. -/
theorem retry_delay_law_witness :
    (traceFrom ⟨3, 2000⟩ oDownFail fiW driveW "T" 1).1.head? = some (procUpd fiW 1) ∧
    (traceFrom ⟨3, 2000⟩ oDownFail fiW driveW "T" 1).1
      = procUpd fiW 1 :: (tryBody fiW driveW "T" (oDownFail 1)).1
          ++ Act.sleep (2 ^ 1 * 2000)
            :: (traceFrom ⟨3, 2000⟩ oDownFail fiW driveW "T" 2).1 :=
  ⟨(retry_delay_law ⟨3, 2000⟩ oDownFail fiW driveW "T" 1 (by decide) (by decide)).1,
    ((retry_delay_law ⟨3, 2000⟩ oDownFail fiW driveW "T" 1 (by decide) (by decide)).2
      "network down" (by decide) rfl).1⟩

theorem traceFrom_all_fail (cfg : RetryConfig) (o : Nat → AttemptOutcome)
    (fi : FileInfo) (drive : DriveFile) (now : String) (ch : String)
    (msgF : Nat → String) (hch : fi.channels.head? = some ch) :
    ∀ d attempt, cfg.maxAttempts - attempt = d → 1 ≤ attempt →
      attempt ≤ cfg.maxAttempts →
      (∀ j, attempt ≤ j → j ≤ cfg.maxAttempts →
        (tryBody fi drive now (o j)).2 = some (msgF j)) →
      (traceFrom cfg o fi drive now attempt).2 = .error (msgF cfg.maxAttempts) ∧
      (∃ pre, (traceFrom cfg o fi drive now attempt).1
          = pre ++ [failedUpd fi (msgF cfg.maxAttempts) cfg.maxAttempts,
                    Act.notifyFailure ch (msgF cfg.maxAttempts)]) ∧
      (traceFrom cfg o fi drive now attempt).1.countP startsProcessing
        = cfg.maxAttempts - attempt + 1 := by
  intro d
  induction d with
  | zero =>
    intro attempt hd h1 h2 hfail
    have ha : attempt = cfg.maxAttempts := by omega
    subst ha
    have hfuel : cfg.maxAttempts + 1 - cfg.maxAttempts = 0 + 1 := by omega
    have hbody := tryBody_acts_plain fi drive now (o cfg.maxAttempts)
    have htb := hfail cfg.maxAttempts (le_refl _) (le_refl _)
    have hnlt : ¬(cfg.maxAttempts < cfg.maxAttempts) := lt_irrefl _
    unfold traceFrom
    rw [hfuel, runRetry_succ, htb]
    simp only [hnlt, if_false, hch]
    rw [sendErrorMessage_const]
    refine ⟨by trivial, ⟨procUpd fi cfg.maxAttempts :: (tryBody fi drive now (o cfg.maxAttempts)).1, by simp⟩, ?_⟩
    have hzero : (tryBody fi drive now (o cfg.maxAttempts)).1.countP startsProcessing = 0 := by
      rw [List.countP_eq_zero]
      intro a ha
      simp [(hbody a ha).2]
    simp [List.countP_cons, List.countP_append, hzero, startsProcessing, procUpd,
      failedUpd]
  | succ d ih =>
    intro attempt hd h1 h2 hfail
    have hlt : attempt < cfg.maxAttempts := by omega
    have hfuel : cfg.maxAttempts + 1 - attempt
        = (cfg.maxAttempts + 1 - (attempt + 1)) + 1 := by omega
    have hbody := tryBody_acts_plain fi drive now (o attempt)
    have htb := hfail attempt (le_refl _) (by omega)
    have IH := ih (attempt + 1) (by omega) (by omega) (by omega)
      (fun j hj1 hj2 => hfail j (by omega) hj2)
    unfold traceFrom at IH ⊢
    rw [hfuel, runRetry_succ, htb]
    simp only [hlt, if_true]
    obtain ⟨hres, ⟨pre, hpre⟩, hcount⟩ := IH
    refine ⟨hres, ⟨procUpd fi attempt :: (tryBody fi drive now (o attempt)).1
      ++ Act.sleep (2 ^ attempt * cfg.delayMs) :: pre, ?_⟩, ?_⟩
    · rw [hpre]
      simp
    · have hzero : (tryBody fi drive now (o attempt)).1.countP startsProcessing = 0 := by
        rw [List.countP_eq_zero]
        intro a ha
        simp [(hbody a ha).2]
      simp only [List.countP_cons, List.countP_append, hzero, hcount]
      have hp : startsProcessing (procUpd fi attempt) = true := rfl
      have hs : startsProcessing (Act.sleep (2 ^ attempt * cfg.delayMs)) = false := rfl
      rw [hp, hs]
      simp
      omega

/-- C4: the terminal failure law. With a sharing channel present and every
attempt failing, the run ends with the store update
`{status: 'failed', error_message: <last error>, retry_count: maxAttempts}`
followed by the failure notification to the channel, rethrows the last
error, and starts exactly `maxAttempts` attempts — no further retry. -/
theorem retry_terminal_failure :
    ∀ (cfg : RetryConfig) (o : Nat → AttemptOutcome) (fi : FileInfo)
      (drive : DriveFile) (now : String) (ch : String) (msgF : Nat → String),
      fi.channels.head? = some ch → 1 ≤ cfg.maxAttempts →
      (∀ j, 1 ≤ j → j ≤ cfg.maxAttempts →
        (tryBody fi drive now (o j)).2 = some (msgF j)) →
      (processUploadWithRetry cfg o fi drive now).2
        = .error (msgF cfg.maxAttempts) ∧
      (∃ pre, (processUploadWithRetry cfg o fi drive now).1
          = pre ++ [failedUpd fi (msgF cfg.maxAttempts) cfg.maxAttempts,
                    Act.notifyFailure ch (msgF cfg.maxAttempts)]) ∧
      (processUploadWithRetry cfg o fi drive now).1.countP startsProcessing
        = cfg.maxAttempts := by
  intro cfg o fi drive now ch msgF hch hmax hfail
  have hpt : processUploadWithRetry cfg o fi drive now
      = traceFrom cfg o fi drive now 1 := by
    unfold processUploadWithRetry traceFrom
    norm_num
  obtain ⟨hres, hpre, hcount⟩ := traceFrom_all_fail cfg o fi drive now ch msgF hch
    (cfg.maxAttempts - 1) 1 rfl (le_refl _) hmax hfail
  rw [hpt]
  refine ⟨hres, hpre, ?_⟩
  rw [hcount]
  omega

/-- C4 witness: with `maxAttempts = 2` and both attempts failing at the
download, the run rethrows the last error, ends with the failed update and
the channel notification, and starts exactly two attempts. -/
theorem retry_terminal_failure_witness :
    (processUploadWithRetry ⟨2, 2000⟩ oDownFail fiW driveW "T").2
      = .error "network down" ∧
    (∃ pre, (processUploadWithRetry ⟨2, 2000⟩ oDownFail fiW driveW "T").1
        = pre ++ [failedUpd fiW "network down" 2,
                  Act.notifyFailure "C0AAAAAAA1" "network down"]) ∧
    (processUploadWithRetry ⟨2, 2000⟩ oDownFail fiW driveW "T").1.countP
        startsProcessing = 2 :=
  retry_terminal_failure ⟨2, 2000⟩ oDownFail fiW driveW "T" "C0AAAAAAA1"
    (fun _ => "network down") rfl (by decide) (fun j _ _ => rfl)

/-- C5: notifications are fire-and-forget. The run is entirely independent
of the notification transport outcomes (both helpers catch their own send
failures), and in particular when download and store-upload succeed on
attempt 1 the run completes immediately — one processing update, the
completed update, the success notification, no sleep, no retry, result ok —
whatever the notification transport does. -/
theorem notifications_fire_and_forget :
    ∀ (cfg : RetryConfig) (o o2 : Nat → AttemptOutcome) (fi : FileInfo)
      (drive : DriveFile) (now : String) (ch : String),
      ((∀ k, (o k).download = (o2 k).download ∧ (o k).driveUp = (o2 k).driveUp) →
        processUploadWithRetry cfg o fi drive now
          = processUploadWithRetry cfg o2 fi drive now) ∧
      (fi.channels.head? = some ch → (o 1).download = none → (o 1).driveUp = none →
        1 ≤ cfg.maxAttempts →
        processUploadWithRetry cfg o fi drive now
          = ([procUpd fi 1, Act.download fi.urlPrivateDownload,
              Act.driveUpload fi.name, completedUpd fi drive now,
              Act.notifySuccess ch], .ok ())) := by
  intro cfg o o2 fi drive now ch
  constructor
  · intro hagree
    have key : ∀ fuel attempt, runRetry cfg o fi drive now fuel attempt
        = runRetry cfg o2 fi drive now fuel attempt := by
      intro fuel
      induction fuel with
      | zero => intro attempt; rfl
      | succ fuel ih =>
        intro attempt
        rw [runRetry_succ, runRetry_succ,
          tryBody_congr fi drive now (o attempt) (o2 attempt)
            (hagree attempt).1 (hagree attempt).2, ih]
        rcases (tryBody fi drive now (o2 attempt)).2 with _ | msg
        · rfl
        · by_cases hlt : attempt < cfg.maxAttempts
          · simp only [hlt, if_true]
          · simp only [hlt, if_false]
            rcases fi.channels.head? with _ | c
            · rfl
            · simp only [sendErrorMessage_const]
    unfold processUploadWithRetry
    exact key cfg.maxAttempts 1
  · intro hch hd hu hmax
    have hfuel : cfg.maxAttempts = (cfg.maxAttempts - 1) + 1 := by omega
    have htb : tryBody fi drive now (o 1)
        = ([Act.download fi.urlPrivateDownload, Act.driveUpload fi.name,
            completedUpd fi drive now, Act.notifySuccess ch], none) := by
      simp [tryBody, hd, hu, hch, sendCompletionMessage_const]
    unfold processUploadWithRetry
    rw [hfuel, runRetry_succ, htb]

/-- C5 witness: attempt 1 downloads and uploads fine but the success
notification transport rejects; the pipeline outcome is unchanged — the
record is completed, nothing is retried, the run resolves. -/
theorem notifications_fire_and_forget_witness :
    processUploadWithRetry ⟨3, 2000⟩ oNotifyFail fiW driveW "T"
      = ([procUpd fiW 1, Act.download fiW.urlPrivateDownload,
          Act.driveUpload fiW.name, completedUpd fiW driveW "T",
          Act.notifySuccess "C0AAAAAAA1"], .ok ()) :=
  (notifications_fire_and_forget ⟨3, 2000⟩ oNotifyFail oNotifyFail fiW driveW "T"
    "C0AAAAAAA1").2 rfl rfl rfl (by decide)

/-- C8: overlay identity under `noChanges`. Merging any base rule with an
overlay entry flagged `noChanges` yields the base rule unchanged; the whole
merged table equals the table merged with that category removed from the
overlay; and therefore `classifyImage` produces identical output on every
input. -/
theorem overlay_noChanges_identity :
    ∀ (B : RuleTable) (L : String → Option LearnedRule) (c : String)
      (lr : LearnedRule),
      L c = some lr → lr.noChanges = true →
      (∀ b : Rule, mergeRule b (L c) = b) ∧
      mergeRules B L = mergeRules B (fun c2 => if c2 == c then none else L c2) ∧
      (∀ (va : VisionAnalysis) (ctx : SlackContext),
        classifyImage (mergeRules B L) va ctx
          = classifyImage (mergeRules B (fun c2 => if c2 == c then none else L c2))
              va ctx) := by
  intro B L c lr hL hnc
  have h1 : ∀ b : Rule, mergeRule b (L c) = b := by
    intro b
    rw [hL]
    simp [mergeRule, hnc]
  have h2 : mergeRules B L
      = mergeRules B (fun c2 => if c2 == c then none else L c2) := by
    unfold mergeRules
    apply List.map_congr_left
    intro cr _
    by_cases hc : (cr.1 == c) = true
    · have hceq : cr.1 = c := by simpa using hc
      rw [hceq]
      simp only [beq_self_eq_true, if_true]
      rw [h1 cr.2]
      simp [mergeRule]
    · simp only [hc, if_false]
      rfl
  exact ⟨h1, h2, fun va ctx => by rw [h2]⟩

/-- C8 witness: an overlay whose `기타` entry is flagged `noChanges` merges
to the same table as the overlay with that entry removed. -/
theorem overlay_noChanges_identity_witness :
    mergeRules BASE_RULES noChangesOverlay
      = mergeRules BASE_RULES
          (fun c2 => if c2 == catEtc then none else noChangesOverlay c2) :=
  (overlay_noChanges_identity BASE_RULES noChangesOverlay catEtc
    ⟨true, none, some (some true), ["x"], ["y"], ["z"]⟩ rfl rfl).2.1

/-! ### Helper lemmas for the label sub-score claim -/

theorem find_map_desc (labels : List VisionLabel) (vl : String) :
    ((labels.map (fun l => lowerStr l.description)).find?
        (fun lt => strIncludes lt (lowerStr vl) || strIncludes (lowerStr vl) lt)).bind
      (fun mlt => labels.find? (fun l => lowerStr l.description == mlt))
    = labels.find? (fun l => labelMatches l.description vl) := by
  induction labels with
  | nil => rfl
  | cons l ls ih =>
    by_cases hp : (strIncludes (lowerStr l.description) (lowerStr vl)
        || strIncludes (lowerStr vl) (lowerStr l.description)) = true
    · simp only [List.map_cons]
      rw [List.find?_cons_of_pos (p := fun lt =>
          strIncludes lt (lowerStr vl) || strIncludes (lowerStr vl) lt) _ hp,
        List.find?_cons_of_pos (p := fun x : VisionLabel =>
          labelMatches x.description vl) _ (by simpa [labelMatches] using hp)]
      rw [Option.some_bind]
      rw [List.find?_cons_of_pos (p := fun x : VisionLabel =>
        lowerStr x.description == lowerStr l.description) _ (by simp)]
    · simp only [List.map_cons]
      rw [List.find?_cons_of_neg (p := fun lt =>
          strIncludes lt (lowerStr vl) || strIncludes (lowerStr vl) lt) _ hp,
        List.find?_cons_of_neg (p := fun x : VisionLabel =>
          labelMatches x.description vl) _ (by simpa [labelMatches] using hp)]
      rcases hf : (ls.map (fun l => lowerStr l.description)).find?
          (fun lt => strIncludes lt (lowerStr vl) || strIncludes (lowerStr vl) lt)
        with _ | mlt
      · rw [hf] at ih ⊢
        simp only [Option.none_bind] at ih ⊢
        exact ih
      · have hpm := List.find?_some hf
        have hne : ¬((lowerStr l.description == mlt) = true) := by
          intro hbeq
          have hEq : lowerStr l.description = mlt := by simpa using hbeq
          rw [hEq] at hp
          exact hp hpm
        rw [hf] at ih ⊢
        rw [Option.some_bind] at ih ⊢
        rw [List.find?_cons_of_neg (p := fun x : VisionLabel =>
          lowerStr x.description == mlt) _ hne]
        exact ih

theorem labelStep_eq (labels : List VisionLabel) (vl : String) (ms : ℚ) :
    (match (labels.map (fun l => lowerStr l.description)).find?
        (fun lt => strIncludes lt (lowerStr vl) || strIncludes (lowerStr vl) lt) with
      | some matchedLabel =>
        match labels.find? (fun l => lowerStr l.description == matchedLabel) with
        | some labelObj => qmax ms labelObj.score
        | none => ms
      | none => ms)
    = match labels.find? (fun l => labelMatches l.description vl) with
      | some l => qmax ms l.score
      | none => ms := by
  rw [← find_map_desc labels vl]
  rcases hf : (labels.map (fun l => lowerStr l.description)).find?
      (fun lt => strIncludes lt (lowerStr vl) || strIncludes (lowerStr vl) lt)
    with _ | mlt
  · simp only [hf, Option.none_bind]
  · simp only [hf, Option.some_bind]

theorem antiStep_eq (labels : List VisionLabel) (al : String) (ms : ℚ) :
    (match (labels.map (fun l => lowerStr l.description)).find?
        (fun lt => strIncludes lt (lowerStr al) || strIncludes (lowerStr al) lt) with
      | some matchedAntiLabel =>
        match labels.find? (fun l => lowerStr l.description == matchedAntiLabel) with
        | some antiLabelObj => ms - antiLabelObj.score * 0.15
        | none => ms
      | none => ms)
    = match labels.find? (fun l => labelMatches l.description al) with
      | some l => ms - l.score * 0.15
      | none => ms := by
  rw [← find_map_desc labels al]
  rcases hf : (labels.map (fun l => lowerStr l.description)).find?
      (fun lt => strIncludes lt (lowerStr al) || strIncludes (lowerStr al) lt)
    with _ | mlt
  · simp only [hf, Option.none_bind]
  · simp only [hf, Option.some_bind]

theorem foldl_sub_eq (f : String → ℚ) : ∀ (l : List String) (b : ℚ),
    l.foldl (fun ms al => ms - f al) b = b - l.foldl (fun acc al => acc + f al) 0 := by
  have hadd : ∀ (l : List String) (x : ℚ),
      l.foldl (fun acc al => acc + f al) x = x + l.foldl (fun acc al => acc + f al) 0 := by
    intro l
    induction l with
    | nil => intro x; simp
    | cons a l ih =>
      intro x
      simp only [List.foldl_cons]
      rw [ih (x + f a), ih (0 + f a)]
      ring
  intro l
  induction l with
  | nil => intro b; simp
  | cons a l ih =>
    intro b
    simp only [List.foldl_cons]
    rw [ih (b - f a), hadd l (0 + f a)]
    ring

theorem visionLabelScore_eq_amended (labels : List VisionLabel) (r : Rule) :
    visionLabelScore labels (labels.map (fun l => lowerStr l.description)) r
      = amendedLabelScore labels r := by
  unfold visionLabelScore amendedLabelScore
  have hbase : (fun (matchScore : ℚ) (visionLabel : String) =>
      match (labels.map (fun l => lowerStr l.description)).find?
          (fun lt => strIncludes lt (lowerStr visionLabel)
            || strIncludes (lowerStr visionLabel) lt) with
        | some matchedLabel =>
          match labels.find? (fun l => lowerStr l.description == matchedLabel) with
          | some labelObj => qmax matchScore labelObj.score
          | none => matchScore
        | none => matchScore)
      = (fun (acc : ℚ) (vl : String) =>
        match labels.find? (fun l => labelMatches l.description vl) with
        | some l => qmax acc l.score
        | none => acc) := by
    funext ms vl
    exact labelStep_eq labels vl ms
  rw [hbase]
  by_cases hanti : r.antiLabels.length > 0
  · simp only [hanti, if_true]
    have hstepA : (fun (matchScore : ℚ) (antiLabel : String) =>
        match (labels.map (fun l => lowerStr l.description)).find?
            (fun lt => strIncludes lt (lowerStr antiLabel)
              || strIncludes (lowerStr antiLabel) lt) with
          | some matchedAntiLabel =>
            match labels.find? (fun l => lowerStr l.description == matchedAntiLabel) with
            | some antiLabelObj => matchScore - antiLabelObj.score * 0.15
            | none => matchScore
          | none => matchScore)
        = (fun (ms : ℚ) (al : String) =>
          ms - (match labels.find? (fun l => labelMatches l.description al) with
            | some l => l.score * 0.15
            | none => 0)) := by
      funext ms al
      rw [antiStep_eq labels al ms]
      rcases hg : labels.find? (fun l => labelMatches l.description al) with _ | lobj
      · simp [hg]
      · simp [hg]
    have hstepP : (fun (acc : ℚ) (al : String) =>
        match labels.find? (fun l => labelMatches l.description al) with
        | some l => acc + l.score * 0.15
        | none => acc)
        = (fun (acc : ℚ) (al : String) =>
          acc + (match labels.find? (fun l => labelMatches l.description al) with
            | some l => l.score * 0.15
            | none => 0)) := by
      funext acc al
      rcases hg : labels.find? (fun l => labelMatches l.description al) with _ | lobj
      · simp [hg]
      · simp [hg]
    rw [hstepA, hstepP, foldl_sub_eq]
  · simp only [hanti, if_false]
    have hnil : r.antiLabels = [] := by
      cases hr : r.antiLabels with
      | nil => rfl
      | cons a l => rw [hr] at hanti; simp at hanti
    rw [hnil]
    simp

theorem find_table_of_mem (table : RuleTable) (c : String) (r : Rule)
    (hnd : (table.map Prod.fst).Nodup) (hmem : (c, r) ∈ table) :
    table.find? (fun cr => cr.1 == c) = some (c, r) := by
  induction table with
  | nil => cases hmem
  | cons cr table ih =>
    rw [List.map_cons, List.nodup_cons] at hnd
    rcases List.mem_cons.mp hmem with h | h
    · rw [← h]
      rw [List.find?_cons_of_pos (p := fun cr : String × Rule => cr.1 == c) _ (by simp)]
    · have hkey : ¬((cr.1 == c) = true) := by
        intro hbeq
        have hEq : cr.1 = c := by simpa using hbeq
        have hc : c ∈ table.map Prod.fst := List.mem_map.mpr ⟨(c, r), h, rfl⟩
        rw [hEq] at hnd
        exact hnd.1 hc
      rw [List.find?_cons_of_neg (p := fun cr : String × Rule => cr.1 == c) _ hkey]
      exact ih hnd.2 h

theorem find_key_map {α β : Type} (l : List (String × α)) (f : String × α → β)
    (c : String) (p : String × α) (h : l.find? (fun q => q.1 == c) = some p) :
    (l.map (fun q => (q.1, f q))).find? (fun q => q.1 == c) = some (p.1, f p) := by
  rw [List.find?_map]
  have hcomp : ((fun q : String × β => q.1 == c) ∘ (fun q : String × α => (q.1, f q)))
      = (fun q : String × α => q.1 == c) := rfl
  rw [hcomp, h]
  rfl

/-- C7 counterexample: with detected labels `logo design` (0.3, first) and
`logo` (0.9, second), both matching the positive list of `UI / 화면`, the
code's label score is 0.3 — the confidence of the FIRST detected label
matching a positive rule label — while the claimed maximum over all
matching detected labels is 0.9. -/
theorem label_score_counterexample :
    lookupD (analyzeVisionLabels CATEGORY_RULES c7labels) catUI 0 = 3 / 10 ∧
    claimLabelScore c7labels uiRule = 9 / 10 ∧
    (CATEGORY_RULES.find? (fun cr => cr.1 == catUI)).map Prod.snd = some uiRule ∧
    (3 / 10 : ℚ) ≠ 9 / 10 := by
  refine ⟨by with_unfolding_all rfl, by with_unfolding_all rfl,
    by with_unfolding_all rfl, by norm_num⟩

/-- C7 amended: for every category of a well-keyed rule table and every
detected-label list, the label sub-score equals the amended formula — the
maximum over the positive rule labels of the confidence of the first
detected label matching each of them (not the maximum over all matching
detected labels), minus 15 percent of the confidence of the first detected
label matching each anti-label, floored at 0 — and this sub-score enters
the accumulating total with weight 0.4. -/
theorem label_score_first_match :
    ∀ (labels : List VisionLabel) (table : RuleTable) (c : String) (r : Rule),
      (table.map Prod.fst).Nodup → (c, r) ∈ table →
      lookupD (analyzeVisionLabels table labels) c 0
        = (if labels.isEmpty then 0 else amendedLabelScore labels r) ∧
      (∀ (va : VisionAnalysis) (ctx : SlackContext),
        lookupD (scoresStage2 table va ctx) c 0
          = lookupD (scoresStage1 table ctx) c 0
            + 0.4 * lookupD (analyzeVisionLabels table va.labels) c 0) := by
  intro labels table c r hnd hmem
  have htab := find_table_of_mem table c r hnd hmem
  constructor
  · unfold analyzeVisionLabels
    by_cases hempty : labels.isEmpty = true
    · simp only [hempty, if_true]
      unfold zeroScores lookupD
      rw [find_key_map table (fun _ => (0 : ℚ)) c (c, r) htab]
    · simp only [hempty, if_false]
      have hl : lookupD (table.map (fun cr =>
          (cr.1, visionLabelScore labels (labels.map (fun l => lowerStr l.description)) cr.2)))
            c 0
          = visionLabelScore labels (labels.map (fun l => lowerStr l.description)) r := by
        unfold lookupD
        rw [find_key_map table
          (fun cr => visionLabelScore labels (labels.map (fun l => lowerStr l.description)) cr.2)
          c (c, r) htab]
      exact hl.trans (visionLabelScore_eq_amended labels r)
  · intro va ctx
    have h0 : (zeroScores table).find? (fun q => q.1 == c) = some (c, (0 : ℚ)) := by
      unfold zeroScores
      exact find_key_map table (fun _ => (0 : ℚ)) c (c, r) htab
    have h1 : (scoresStage1 table ctx).find? (fun q => q.1 == c)
        = some (c, 0 + 0.4 * lookupD (analyzeKeywords table ctx) c 0) := by
      unfold scoresStage1 addWeighted
      exact find_key_map (zeroScores table)
        (fun q => q.2 + 0.4 * lookupD (analyzeKeywords table ctx) q.1 0) c (c, 0) h0
    have h2 : (scoresStage2 table va ctx).find? (fun q => q.1 == c)
        = some (c, (0 + 0.4 * lookupD (analyzeKeywords table ctx) c 0)
            + 0.4 * lookupD (analyzeVisionLabels table va.labels) c 0) := by
      unfold scoresStage2 addWeighted
      exact find_key_map (scoresStage1 table ctx)
        (fun q => q.2 + 0.4 * lookupD (analyzeVisionLabels table va.labels) q.1 0) c
        (c, 0 + 0.4 * lookupD (analyzeKeywords table ctx) c 0) h1
    unfold lookupD
    rw [h1, h2]
    rfl

/-- C7 amended witness: instantiated at the counterexample labels and the
`UI / 화면` category of the loaded table. -/
theorem label_score_first_match_witness :
    lookupD (analyzeVisionLabels CATEGORY_RULES c7labels) catUI 0
      = (if c7labels.isEmpty then 0 else amendedLabelScore c7labels uiRule) :=
  (label_score_first_match c7labels CATEGORY_RULES catUI uiRule (by decide)
    (List.Mem.tail _ (List.Mem.tail _ (List.Mem.head _)))).1

end SlackToDrive
